import Mathlib

/-
Verification of daily_pubmed_digest.py against its specification.

The program is a single-file Python pipeline.  Python strings are sequences
of Unicode code points and are modeled as lists of Char; machine-level
concerns do not arise.  Network calls return free-form text that the code
immediately decodes to JSON, so each model reply is represented by its
decoded JSON value, with the empty object standing for every transport
failure and every reply in which no JSON object could be located, exactly
the cases in which the function _force_json of the source returns an empty
dict.  Times are integers counting UTC seconds, one day being 86400
seconds.
-/

/-- Python strings: sequences of Unicode code points, modeled as lists of Char. -/
abbrev PStr := List Char

/-- Model of the Python str whitespace notion used by str.strip with no
argument: ASCII whitespace plus the common Unicode space characters,
including the ideographic space U+3000 that appears in the marker sets of
the source. -/
def pyIsSpace (c : Char) : Bool :=
  c = ' ' || c = '\t' || c = '\n' || c = '\r' ||
  c.toNat = 11 || c.toNat = 12 ||
  (28 ≤ c.toNat && c.toNat ≤ 31) ||
  c.toNat = 133 || c.toNat = 160 || c.toNat = 0x1680 ||
  (0x2000 ≤ c.toNat && c.toNat ≤ 0x200a) ||
  c.toNat = 0x2028 || c.toNat = 0x2029 || c.toNat = 0x202f ||
  c.toNat = 0x205f || c.toNat = 0x3000

/-- Python s.strip(): remove leading and trailing whitespace. -/
def pyStrip (s : PStr) : PStr :=
  (s.dropWhile pyIsSpace).rdropWhile pyIsSpace

/-- Python s.lstrip(chars): remove leading characters drawn from the given set. -/
def pyLstrip (s : PStr) (cs : List Char) : PStr :=
  s.dropWhile (fun c => cs.contains c)

/-- Python s.lower(), restricted to the ASCII case mapping; every string the
source lowercases before comparing is ASCII. -/
def pyLower (s : PStr) : PStr := s.map Char.toLower

/-- JSON values as produced by json.loads: the shape of the data in the
state file and in the decoded generative-model replies.  JSON numbers are
modeled as integers; the program only ever uses the truthiness and the str
rendering of a number, and a float bullets value behaves exactly like an
integer one in every claim considered here. -/
inductive JValue where
  | null
  | bool (b : Bool)
  | num (n : Int)
  | str (s : PStr)
  | arr (elems : List JValue)
  | obj (fields : List (PStr × JValue))

/-- Python truthiness of a JSON-decoded value: None, False, zero, the empty
string, the empty list and the empty dict are falsy. -/
def pyFalsy : JValue → Bool
  | .null => true
  | .bool b => !b
  | .num n => n = 0
  | .str s => s.isEmpty
  | .arr xs => xs.isEmpty
  | .obj kvs => kvs.isEmpty

/-- Python x or y on JSON values: y when x is falsy, else x. -/
def pyOr (a b : JValue) : JValue := if pyFalsy a then b else a

/-- Python dict.get(key) with default None.  json.loads keeps the value of
the last duplicate key, hence the reversed search. -/
def dictGet (kvs : List (PStr × JValue)) (k : PStr) : JValue :=
  match kvs.reverse.find? (fun kv => kv.1 == k) with
  | some kv => kv.2
  | none => .null

/-- Comma-and-space joining used by the Python repr of lists and dicts. -/
def commaJoin : List PStr → PStr
  | [] => []
  | [x] => x
  | x :: xs => x ++ ", ".data ++ commaJoin xs

/-- The ASCII single-quote character used by the Python repr of strings. -/
def squote : Char := Char.ofNat 39

mutual

/-- Python repr of a JSON-decoded value.  Escaping inside string repr is
not modeled; no string any claim touches is rendered through repr. -/
def pyRepr : JValue → PStr
  | .null => "None".data
  | .bool true => "True".data
  | .bool false => "False".data
  | .num k => (toString k).data
  | .str s => squote :: s ++ [squote]
  | .arr xs => '[' :: pyReprList xs ++ [']']
  | .obj kvs => '\x7b' :: pyReprKVs kvs ++ ['\x7d']

/-- Comma-joined reprs of the elements of a list. -/
def pyReprList : List JValue → PStr
  | [] => []
  | [x] => pyRepr x
  | x :: y :: xs => pyRepr x ++ ", ".data ++ pyReprList (y :: xs)

/-- Comma-joined key-colon-value reprs of the fields of a dict. -/
def pyReprKVs : List (PStr × JValue) → PStr
  | [] => []
  | [kv] => (squote :: kv.1 ++ [squote]) ++ ": ".data ++ pyRepr kv.2
  | kv :: kv2 :: kvs =>
      (squote :: kv.1 ++ [squote]) ++ ": ".data ++ pyRepr kv.2 ++ ", ".data ++
        pyReprKVs (kv2 :: kvs)

end

/-- Python str() of a JSON-decoded value: a string renders as itself, every
other value renders as its repr. -/
def pyStr : JValue → PStr
  | .str s => s
  | v => pyRepr v

/-- Uncaught Python exceptions that can escape the functions modeled here;
the distinction between TypeError and AttributeError is irrelevant to every
claim, both abort the run. -/
inductive PyErr where
  | typeError
deriving DecidableEq

/- ========= Delivery state store (load_sent_state, save_sent_pmids,
prune_sent_state of the source) ========= -/

/-- In-memory delivery state: the insertion-ordered mapping from article
identifier to JSON metadata held in sent_pmids.json. -/
abbrev StateMap := List (PStr × JValue)

/-- The added_at key of one state entry. -/
def addedAtKey : PStr := "added_at".data

/-- The expression (meta or dict()).get of the prune loop, reading the
added_at field of one entry: a falsy meta reads as None, a dict meta reads
its field, and a truthy non-dict meta raises AttributeError, which line 74
of the source does not catch. -/
def metaAddedAt (meta : JValue) : Except PyErr JValue :=
  if pyFalsy meta then .ok .null
  else match meta with
    | .obj kvs => .ok (dictGet kvs addedAtKey)
    | _ => .error .typeError

/-- Shape predicate under which the added_at read cannot raise: the
metadata is falsy or a dict, the only shapes the program itself ever
stores. -/
def metaOkShape (meta : JValue) : Bool :=
  pyFalsy meta || (match meta with | .obj _ => true | _ => false)

/-- Pure value of the added_at read on a well-shaped entry. -/
def addedAtVal (meta : JValue) : JValue :=
  if pyFalsy meta then .null
  else match meta with
    | .obj kvs => dictGet kvs addedAtKey
    | _ => .null

/-- One keep-or-drop decision of the prune loop for the added_at value ts.
A falsy ts is kept; a truthy non-string ts makes fromisoformat raise
TypeError inside the try block, so it is kept; a string ts is kept when it
fails to parse, or when its normalized UTC time is at or after the cutoff.
The combination of datetime.fromisoformat, the tzinfo replacement and
astimezone to UTC is abstracted as a parse function returning UTC
seconds. -/
def keepTs (parse : PStr → Option Int) (cutoff : Int) (ts : JValue) : Bool :=
  if pyFalsy ts then true
  else match ts with
    | .str s =>
        match parse s with
        | some t => cutoff ≤ t
        | none => true
    | _ => true

/-- The parsed timestamp of one entry as the prune loop sees it: present
exactly when the added_at value is a nonempty string the parser accepts. -/
def tsOf (parse : PStr → Option Int) (meta : JValue) : Option Int :=
  match addedAtVal meta with
  | .str s => if s = [] then none else parse s
  | _ => none

/-- The loop of prune_sent_state: entries are visited in order, kept
entries keep their metadata unchanged, dropped entries are counted. -/
def prune_loop (parse : PStr → Option Int) (cutoff : Int) :
    StateMap → Except PyErr (StateMap × Nat)
  | [] => .ok ([], 0)
  | (pmid, meta) :: rest => do
      let ts ← metaAddedAt meta
      let r ← prune_loop parse cutoff rest
      if keepTs parse cutoff ts then .ok ((pmid, meta) :: r.1, r.2)
      else .ok (r.1, r.2 + 1)

/-- prune_sent_state from the source, with the current UTC time and the
timestamp parser as explicit parameters; time is in seconds, one day being
86400 seconds.  The isinstance guard of the source is outside the model
because the state argument is a map by type. -/
def prune_sent_state (parse : PStr → Option Int) (now : Int) (days : Int)
    (state : StateMap) : Except PyErr (StateMap × Nat) :=
  prune_loop parse (now - days * 86400) state

/-- String comparison as Python orders str values: lexicographic on code
points, a proper prefix ordering before its extensions. -/
def pstrLe : PStr → PStr → Bool
  | [], _ => true
  | _ :: _, [] => false
  | a :: as, b :: bs => if a = b then pstrLe as bs else decide (a < b)

/-- Insertion step of the sort used to model Python sorted. -/
def insertSorted (x : PStr) : List PStr → List PStr
  | [] => [x]
  | y :: ys => if pstrLe x y then x :: y :: ys else y :: insertSorted x ys

/-- Model of Python sorted on a list of strings. -/
def sortPStr (l : List PStr) : List PStr := l.foldr insertSorted []

/-- save_sent_pmids from the source: the JSON document written to
sent_pmids.json is the sorted list of the given identifiers, nothing
else — in particular no timestamps. -/
def save_sent_pmids (pmids : List PStr) : JValue :=
  .arr ((sortPStr pmids).map .str)

/-- First-occurrence key deduplication, matching the dict comprehension of
the legacy upgrade path, whose values are all identical. -/
def dedupKeys : List PStr → List PStr
  | [] => []
  | k :: ks => k :: (dedupKeys ks).filter (fun x => x ≠ k)

/-- load_sent_state from the source, on the decoded state file; none models
a missing or unreadable file, both of which yield the empty state.  A
legacy array upgrades to the map form with null added_at; a JSON object is
returned unchanged; any other document falls through to the empty state.
Array elements are modeled as identifier strings, the only element kind
this program ever writes into the file. -/
def load_sent_state (file : Option JValue) : StateMap :=
  match file with
  | none => []
  | some (.arr xs) =>
      if xs.all (fun v => match v with | .str _ => true | _ => false) then
        (dedupKeys (xs.map (fun v => match v with | .str s => s | _ => []))).map
          (fun p => (p, .obj [(addedAtKey, .null)]))
      else []
  | some (.obj kvs) => kvs
  | some _ => []

/- ========= A concrete timestamp parser: model of datetime.fromisoformat
on the canonical timestamp form the source comments assume ========= -/

/-- Reads exactly n ASCII digits into a number, returning the rest. -/
def readDigitsAux : Nat → Nat → PStr → Option (Nat × PStr)
  | 0, acc, s => some (acc, s)
  | _ + 1, _, [] => none
  | n + 1, acc, c :: s =>
      if c.isDigit then readDigitsAux n (acc * 10 + (c.toNat - 48)) s else none

/-- Reads exactly n ASCII digits. -/
def readDigits (n : Nat) (s : PStr) : Option (Nat × PStr) := readDigitsAux n 0 s

/-- Consumes one expected character. -/
def expectChar (c : Char) : PStr → Option PStr
  | [] => none
  | d :: s => if d = c then some s else none

/-- Gregorian leap-year rule. -/
def isLeapYear (y : Nat) : Bool := y % 4 = 0 && (y % 100 ≠ 0 || y % 400 = 0)

/-- Length of one month of the civil calendar. -/
def daysInMonth (y m : Nat) : Nat :=
  if m = 2 then (if isLeapYear y then 29 else 28)
  else if m = 4 || m = 6 || m = 9 || m = 11 then 30
  else 31

/-- Days of the given year strictly before month m. -/
def daysBeforeMonth (y m : Nat) : Nat :=
  (List.range (m - 1)).foldl (fun acc i => acc + daysInMonth y (i + 1)) 0

/-- Days from 1970-01-01 to the given proleptic Gregorian civil date. -/
def epochDays (y m d : Nat) : Int :=
  ((365 * (y - 1) + (y - 1) / 4 - (y - 1) / 100 + (y - 1) / 400
    + daysBeforeMonth y m + (d - 1) : Nat) : Int) - 719162

/-- Model of datetime.fromisoformat restricted to the canonical forms the
program is concerned with: YYYY-MM-DD, optionally followed by THH:MM:SS and
an optional +hh:mm or -hh:mm offset, evaluated to UTC seconds since the
epoch.  An offset-free timestamp is treated as UTC, matching the tzinfo
replacement step of the source; anything outside these forms is
unparseable. -/
def isoParse (s : PStr) : Option Int := do
  let (y, s) ← readDigits 4 s
  let s ← expectChar '-' s
  let (mo, s) ← readDigits 2 s
  let s ← expectChar '-' s
  let (d, s) ← readDigits 2 s
  if y < 1 || mo < 1 || mo > 12 || d < 1 || d > daysInMonth y mo then none
  else
    match s with
    | [] => some (epochDays y mo d * 86400)
    | 'T' :: s => do
        let (h, s) ← readDigits 2 s
        let s ← expectChar ':' s
        let (mi, s) ← readDigits 2 s
        let s ← expectChar ':' s
        let (sec, s) ← readDigits 2 s
        if h > 23 || mi > 59 || sec > 59 then none
        else
          let naive : Int := epochDays y mo d * 86400 + (h * 3600 + mi * 60 + sec : Nat)
          match s with
          | [] => some naive
          | c :: s => do
              let sign ← if c = '+' then some (1 : Int)
                         else if c = '-' then some (-1 : Int) else none
              let (oh, s) ← readDigits 2 s
              let s ← expectChar ':' s
              let (om, s) ← readDigits 2 s
              if decide (s ≠ []) || oh > 23 || om > 59 then none
              else some (naive - sign * ((oh * 3600 + om * 60 : Nat) : Int))
    | _ => none

/- ========= Publication date display (_fmt_date and
_extract_pubdate_display of the source) ========= -/

/-- The month-token table _MONTH_ABBR of the source, verbatim. -/
def MONTH_ABBR : List (PStr × PStr) := [
  ("1".data, "Jan".data), ("01".data, "Jan".data), ("Jan".data, "Jan".data), ("January".data, "Jan".data),
  ("2".data, "Feb".data), ("02".data, "Feb".data), ("Feb".data, "Feb".data), ("February".data, "Feb".data),
  ("3".data, "Mar".data), ("03".data, "Mar".data), ("Mar".data, "Mar".data), ("March".data, "Mar".data),
  ("4".data, "Apr".data), ("04".data, "Apr".data), ("Apr".data, "Apr".data), ("April".data, "Apr".data),
  ("5".data, "May".data), ("05".data, "May".data), ("May".data, "May".data),
  ("6".data, "Jun".data), ("06".data, "Jun".data), ("Jun".data, "Jun".data), ("June".data, "Jun".data),
  ("7".data, "Jul".data), ("07".data, "Jul".data), ("Jul".data, "Jul".data), ("July".data, "Jul".data),
  ("8".data, "Aug".data), ("08".data, "Aug".data), ("Aug".data, "Aug".data), ("August".data, "Aug".data),
  ("9".data, "Sep".data), ("09".data, "Sep".data), ("Sep".data, "Sep".data), ("September".data, "Sep".data),
  ("10".data, "Oct".data), ("Oct".data, "Oct".data), ("October".data, "Oct".data),
  ("11".data, "Nov".data), ("Nov".data, "Nov".data), ("November".data, "Nov".data),
  ("12".data, "Dec".data), ("Dec".data, "Dec".data), ("December".data, "Dec".data)]

/-- Table lookup as an option, for stating normalization hypotheses. -/
def monthTableVal (m : PStr) : Option PStr :=
  (MONTH_ABBR.find? (fun kv => kv.1 == m)).map (fun kv => kv.2)

/-- The dict.get with default of the source: the table value when the token
is a key, else the token itself. -/
def monthGet (m : PStr) : PStr :=
  match monthTableVal m with
  | some v => v
  | none => m

/-- _fmt_date from the source: best-effort date display from the optional
year, month and day texts (findtext results, none modeling a missing
element).  The month token is normalized through the table; a one-digit day
is zero-padded. -/
def _fmt_date (y m d : Option PStr) : PStr :=
  let ys := pyStrip (y.getD [])
  let ms := monthGet (pyStrip (m.getD []))
  let ds := pyStrip (d.getD [])
  if ys ≠ [] ∧ ms ≠ [] ∧ ds ≠ [] then
    let ds := if ds.all Char.isDigit ∧ ds.length = 1 then '0' :: ds else ds
    ys ++ ' ' :: ms ++ ' ' :: ds
  else if ys ≠ [] ∧ ms ≠ [] then ys ++ ' ' :: ms
  else ys

/-- Structured year, month, day texts of one dated XML element. -/
structure YMD where
  year : Option PStr
  month : Option PStr
  day : Option PStr

/-- One Article/ArticleDate element: its DateType attribute (empty when
absent) and its date fields. -/
structure ArticleDateX where
  dateType : PStr
  date : YMD

/-- The date-bearing content of one PubmedArticle element as read by
_extract_pubdate_display: the ArticleDate elements in document order, the
JournalIssue/PubDate structured fields and MedlineDate text, and the
History/PubMedPubDate elements keyed by their PubStatus attribute in
document order. -/
structure ArticleDates where
  articleDates : List ArticleDateX
  issueYear : Option PStr
  issueMonth : Option PStr
  issueDay : Option PStr
  medlineDate : Option PStr
  history : List (PStr × YMD)

/-- The find of a History/PubMedPubDate element with the given PubStatus:
first match in document order. -/
def findHistory (h : List (PStr × YMD)) (status : PStr) : Option YMD :=
  (h.find? (fun e => e.1 == status)).map (fun e => e.2)

/-- _extract_pubdate_display from the source: electronic ArticleDate first,
then the first ArticleDate of any type, then the structured issue date,
then the free-text MedlineDate, then the history dates with status pubmed,
entrez, medline in that order, and finally the empty string. -/
def _extract_pubdate_display (art : ArticleDates) : PStr :=
  match art.articleDates.find? (fun ad => pyLower ad.dateType == "electronic".data) with
  | some ad => _fmt_date ad.date.year ad.date.month ad.date.day
  | none =>
    let s2 := match art.articleDates.head? with
      | some ad => _fmt_date ad.date.year ad.date.month ad.date.day
      | none => []
    if s2 ≠ [] then s2
    else
      let s3 := _fmt_date art.issueYear art.issueMonth art.issueDay
      if s3 ≠ [] then s3
      else
        let md := pyStrip (art.medlineDate.getD [])
        if md ≠ [] then md
        else
          match findHistory art.history "pubmed".data with
          | some e => _fmt_date e.year e.month e.day
          | none =>
            match findHistory art.history "entrez".data with
            | some e => _fmt_date e.year e.month e.day
            | none =>
              match findHistory art.history "medline".data with
              | some e => _fmt_date e.year e.month e.day
              | none => []

/- ========= Summarization client (_format_bullets, translate_title_only,
summarize_title_and_bullets of the source) ========= -/

/-- The character set of the lstrip call in the bullet normalization of
_format_bullets, verbatim from the source (the marker appears twice there;
the set is what matters). -/
def bulletMarks : List Char := "・-•*・ 　".data

/-- The character set of the lstrip calls of the title post-processing,
verbatim from the source. -/
def titleMarks : List Char := "・-•*[]() 　".data

/-- The fixed insufficient-summary placeholder bullet of the source. -/
def insufficientBullet : PStr := "・（要約が不足しています）".data

/-- The fixed placeholder title returned when both title paths fail. -/
def failTitle : PStr := "（邦題生成に失敗）".data

/-- The fixed line main substitutes for the bullets when the article has no
abstract. -/
def noAbstractLine : PStr := "・この論文にはPubMed上でアブストラクトが見つかりません".data

/-- The two keys the summarize reply is read through. -/
def titleKey : PStr := "title_ja".data

/-- The bullets key of the summarize reply. -/
def bulletsKey : PStr := "bullets".data

/-- Python iteration over the bullets value of the reply: strings iterate
per character, lists per element, dicts per key; a truthy number and True
are not iterable and raise TypeError, which nothing in the source
catches. -/
def pyIterate : JValue → Except PyErr (List JValue)
  | .str s => .ok (s.map (fun c => .str [c]))
  | .arr xs => .ok xs
  | .obj kvs => .ok (kvs.map (fun kv => .str kv.1))
  | _ => .error .typeError

/-- The lines or [] guard of _format_bullets followed by iteration: every
falsy value iterates as the empty list. -/
def elemsOf (v : JValue) : Except PyErr (List JValue) :=
  if pyFalsy v then .ok [] else pyIterate v

/-- The two comprehensions of _format_bullets: str each element, strip it,
drop empties, then strip any existing marker prefix and re-apply the single
canonical marker. -/
def cleanBullets (elems : List JValue) : List PStr :=
  ((elems.map (fun x => pyStrip (pyStr x))).filter (fun x => x ≠ [])).map
    (fun x => pyStrip ('・' :: pyLstrip x bulletMarks))

/-- The cut-and-pad step of _format_bullets with its default target of 4,
the only target the program uses: keep at most 4 bullets and pad with the
fixed placeholder until 4. -/
def padFour (xs : List PStr) : List PStr :=
  xs.take 4 ++ List.replicate (4 - (xs.take 4).length) insufficientBullet

/-- The truncation step of _format_bullets: a bullet over 150 characters
becomes its first 147 characters plus an ellipsis. -/
def truncBullet (x : PStr) : PStr :=
  if x.length ≤ 150 then x else x.take 147 ++ ['…']

/-- _format_bullets from the source. -/
def _format_bullets (lines : JValue) : Except PyErr (List PStr) := do
  let elems ← elemsOf lines
  .ok ((padFour (cleanBullets elems)).map truncBullet)

/-- The shared title post-processing of both model calls: strip leading
marker and bracket characters, then drop one trailing sentence
terminator. -/
def postTitle (t : PStr) : PStr :=
  let t := pyLstrip t titleMarks
  if t.getLast? = some '。' ∨ t.getLast? = some '．' ∨ t.getLast? = some '.' then
    t.dropLast
  else t

/-- translate_title_only from the source.  The network call, the text
extraction and the JSON location are summarized by the decoded reply object
tdata; the empty object covers the transport-failure and non-JSON cases.
The whole extraction sits in a try block, so a falsy title_ja value reads
as the empty string and a truthy non-string one raises AttributeError that
the except turns into the empty string: only a nonempty string
survives. -/
def translate_title_only (title : PStr) (tdata : List (PStr × JValue)) : PStr :=
  if pyStrip title = [] then []
  else
    let tj := match dictGet tdata titleKey with
      | .str s => if s ≠ [] then pyStrip s else []
      | _ => []
    postTitle tj

/-- The raw translated title inside summarize_title_and_bullets before the
fallback chain: str of the title_ja field (or the empty string), stripped,
markers removed, one trailing terminator dropped. -/
def rawSummaryTitle (data : List (PStr × JValue)) : PStr :=
  postTitle (pyStrip (pyStr (pyOr (dictGet data titleKey) (.str []))))

/-- The full title computation of summarize_title_and_bullets: the raw
reply title when usable, else the title-only translation, else the fixed
failure placeholder. -/
def summaryTitle (title : PStr) (data tdata : List (PStr × JValue)) : PStr :=
  let t0 := rawSummaryTitle data
  if t0 = [] then
    let r := translate_title_only title tdata
    if r = [] then failTitle else r
  else t0

/-- The record summarize_title_and_bullets returns. -/
structure Summary where
  title_ja : PStr
  bullets : List PStr
deriving DecidableEq

/-- summarize_title_and_bullets from the source; data is the decoded reply
of the summarization call and tdata the decoded reply of the title-only
fallback call, the empty object covering the failure cases as in
translate_title_only.  The abstract argument of the source only enters the
request prompt, which the reply parameter abstracts, so it does not appear
here.  The sanitizer call of the source is commented out there and is not
modeled. -/
def summarize_title_and_bullets (title : PStr) (data tdata : List (PStr × JValue)) :
    Except PyErr Summary := do
  let bullets ← _format_bullets (dictGet data bulletsKey)
  .ok ⟨summaryTitle title data tdata, bullets⟩

/-- The enriched per-article fields main attaches to a record. -/
structure EnrichedRecord where
  title_ja : PStr
  summary : PStr
deriving DecidableEq

/-- Python sep.join on a list of strings. -/
def joinSep (sep : PStr) : List PStr → PStr
  | [] => []
  | [x] => x
  | x :: y :: xs => x ++ sep ++ joinSep sep (y :: xs)

/-- The per-record enrichment step of main, lines 642 to 652 of the source:
summarize_title_and_bullets is called for every record, whatever its
abstract; the title comes from that call, and the summary text is the
joined bullets when the abstract is truthy, else the fixed no-abstract
line. -/
def enrich_record (title abstract : PStr) (data tdata : List (PStr × JValue)) :
    Except PyErr EnrichedRecord := do
  let s ← summarize_title_and_bullets title data tdata
  .ok ⟨s.title_ja, if abstract ≠ [] then joinSep ['\n'] s.bullets else noAbstractLine⟩

/- ========= Delivery dispatcher (_parse_recipients_env of the source)
========= -/

/-- The separator class of the recipient split: comma, newline,
semicolon. -/
def sepChar (c : Char) : Bool := c = ',' || c = '\n' || c = ';'

/-- Middles-removal step of the regex split model. -/
def dropMidEmpty : List PStr → List PStr
  | [] => []
  | [x] => [x]
  | x :: y :: xs =>
      if x = [] then dropMidEmpty (y :: xs) else x :: dropMidEmpty (y :: xs)

/-- Model of re.split on the class comma, newline, semicolon with a plus
quantifier: the string splits on maximal separator runs, so no empty piece
can arise strictly between two pieces, while a leading or trailing
separator still yields an empty end piece. -/
def splitSeps (s : PStr) : List PStr :=
  match s.splitOnP sepChar with
  | [] => []
  | x :: xs => x :: dropMidEmpty xs

/-- Model of email.utils.parseaddr restricted to the two input shapes the
specification names: a bare address, and a display name followed by an
address in angle brackets.  Returns the address part, empty when nothing is
there. -/
def parseaddrAddr (s : PStr) : PStr :=
  if s.contains '<' then
    ((s.dropWhile (fun c => c ≠ '<')).drop 1).takeWhile (fun c => c ≠ '>')
  else s

/-- The accumulation loop of _parse_recipients_env: each piece is stripped
and run through parseaddr; a nonempty address joins the output when its
lowercase form has not been seen, first occurrence winning and order
preserved. -/
def collectAddrs (pa : PStr → PStr) : List PStr → List PStr → List PStr
  | [], _ => []
  | p :: ps, seen =>
      let addr := pa (pyStrip p)
      if addr ≠ [] ∧ pyLower addr ∉ seen then
        addr :: collectAddrs pa ps (pyLower addr :: seen)
      else collectAddrs pa ps seen

/-- Python or on an optional environment string: the value when set and
nonempty, else the alternative. -/
def envOr (a : Option PStr) (b : PStr) : PStr :=
  match a with
  | some s => if s ≠ [] then s else b
  | none => b

/-- The raw recipient string: the first set, nonempty source among the
multi-recipient variable, the single-recipient variable and the sender
address, else empty. -/
def rawRecipients (multi single sender : Option PStr) : PStr :=
  envOr multi (envOr single (envOr sender []))

/-- _parse_recipients_env from the source, with the address extraction of
parseaddr abstracted as the parameter pa and the three environment sources
explicit. -/
def _parse_recipients_env (pa : PStr → PStr) (multi single sender : Option PStr) :
    List PStr :=
  collectAddrs pa (splitSeps (rawRecipients multi single sender)) []

/-- The address sequence before deduplication: each split piece stripped
and run through parseaddr, empties dropped. -/
def addrSeq (pa : PStr → PStr) (parts : List PStr) : List PStr :=
  (parts.map (fun p => pa (pyStrip p))).filter (fun a => a ≠ [])

/- ========= Orchestrator state flow (main of the source, lines 624 to 656)
========= -/

/-- Outcome of the dedup and state-update portion of one run. -/
inductive RunOutcome where
  | finished (saved : Option (List PStr)) (digest : List PStr)
  | nameError (missing : PStr)
deriving DecidableEq

/-- The dedup and state-update portion of main, lines 624 to 656 of the
source, taken after the state has been loaded and pruned: the discovered
identifiers are filtered against the state keys; with no new identifier the
run finishes with an empty digest and no save; otherwise the batch is
fetched, parsed and summarized (the replies are irrelevant to the state
flow) and then line 655 reads a variable named sent — a name the program
never assigns anywhere, the loaded keys having been bound to sent_set at
line 630 — so the interpreter raises NameError there, before
save_sent_pmids and before the mail send.  The fetched records are assumed
to carry exactly the requested identifiers, the successful fetch-and-parse
situation the claim speaks about. -/
def main_state_flow (pmids : List PStr) (state : StateMap) : RunOutcome :=
  let sent_set := state.map Prod.fst
  let new_pmids := pmids.filter (fun p => ¬ sent_set.contains p)
  if new_pmids.isEmpty then .finished none []
  else .nameError "sent".data

/- ========= Concrete inputs used by counterexamples and witnesses
========= -/

/-- Metadata carrying the epoch timestamp, which the counterexample places
exactly at the retention cutoff. -/
def metaC3 : JValue := .obj [(addedAtKey, .str "1970-01-01T00:00:00+00:00".data)]

/-- A one-entry state whose timestamp sits exactly at the retention cutoff. -/
def stateC3 : StateMap := [("1".data, metaC3)]

/-- A one-entry state carrying a real delivery timestamp. -/
def stateC2 : StateMap :=
  [("1".data, .obj [(addedAtKey, .str "2025-01-01T00:00:00+09:00".data)])]

/-- A summarize reply carrying a usable title, for the no-abstract claim. -/
def dataC7 : List (PStr × JValue) :=
  [(titleKey, .str "モデル出力の邦題".data), (bulletsKey, .arr [])]

/-- A title-only reply differing from the summarize reply title. -/
def tdataC7 : List (PStr × JValue) := [(titleKey, .str "タイトル翻訳の邦題".data)]

/-- A title-only reply used by the title-fallback witness. -/
def tdataC6 : List (PStr × JValue) := [(titleKey, .str "翻訳邦題".data)]

/-- Bullets-list placeholder result used in concrete statements. -/
def fourInsufficient : List PStr :=
  [insufficientBullet, insufficientBullet, insufficientBullet, insufficientBullet]

/- ========= Theorems ========= -/

/-- Claim C1 (code bug).  The claim requires that after a successful fetch
and parse the orchestrator records every fetched identifier back into the
persisted state before the next run (and on that basis, that consecutive
runs never repeat a digest entry).  The code cannot do this: line 655 of
the source updates a variable named sent that is never assigned anywhere
(the loaded keys are bound to sent_set at line 630), so every run in which
discovery yields an identifier outside the current state raises NameError
before save_sent_pmids runs; the state file is never written.  Here the
code is evaluated at the concrete failing input — an empty prior state with
one discovered identifier — and crashes. -/
theorem claim_C1_code_eval :
    main_state_flow ["12345".data] [] = RunOutcome.nameError "sent".data := rfl

/-- Claim C2 (code bug).  The claim requires save then load to reproduce an
equal state map.  But save_sent_pmids writes only the sorted identifier
list — the added_at timestamps the prune logic and the source comments rely
on are silently dropped — so a state holding a real timestamp comes back as
the null-timestamp upgrade, not as itself. -/
theorem claim_C2_code_eval :
    load_sent_state (some (save_sent_pmids (stateC2.map Prod.fst))) =
      [("1".data, .obj [(addedAtKey, JValue.null)])] ∧
    load_sent_state (some (save_sent_pmids (stateC2.map Prod.fst))) ≠ stateC2 := by
  refine ⟨rfl, fun h => ?_⟩
  have h2 := congrArg (fun st : StateMap =>
    addedAtVal (match st with | [] => JValue.null | e :: _ => e.2)) h
  exact JValue.noConfusion h2

/-- Claim C10 (confirmed): whenever the year text is missing or strips to
empty, _fmt_date returns the empty string, whatever month and day are
present — a month or day alone is never rendered. -/
theorem claim_C10_year_gate (y m d : Option PStr) (h : pyStrip (y.getD []) = []) :
    _fmt_date y m d = [] := by
  simp [_fmt_date, h]

/-- Witness for claim C10 at a concrete input: a missing year with a month
and a day present formats to the empty string. -/
theorem claim_C10_witness : _fmt_date none (some "May".data) (some "7".data) = [] :=
  claim_C10_year_gate none (some "May".data) (some "7".data) rfl

/-- Claim C7 (corrected, amendment part): for every record with an empty
abstract the rendered summary is the fixed no-abstract line instead of the
bullets; but the summarization call is still made (its decoded reply is the
data argument) and supplies the translated title. -/
theorem claim_C7_amended (title : PStr) (data tdata : List (PStr × JValue)) (s : Summary)
    (hok : summarize_title_and_bullets title data tdata = .ok s) :
    enrich_record title [] data tdata = .ok ⟨s.title_ja, noAbstractLine⟩ := by
  unfold enrich_record
  rw [hok]
  rfl

/-- Counterexample for claim C7 as stated.  The claim says that with an
empty abstract no summarization call is made and the title-only translation
path produces the translated title.  At this input the title-only path
would yield the second string, yet the code returns the first string, taken
from the summarization reply — so the summarization call is made and is the
source of the title. -/
theorem claim_C7_counterexample :
    enrich_record "T".data [] dataC7 tdataC7 =
      .ok ⟨"モデル出力の邦題".data, noAbstractLine⟩ ∧
    translate_title_only "T".data tdataC7 = "タイトル翻訳の邦題".data ∧
    "モデル出力の邦題".data ≠ "タイトル翻訳の邦題".data :=
  ⟨rfl, rfl, by decide⟩

/-- Witness for the amended claim C7 at a concrete input: both replies
empty, so the title degrades to the failure placeholder and the summary is
the no-abstract line. -/
theorem claim_C7_witness :
    enrich_record "T".data [] [] [] = .ok ⟨failTitle, noAbstractLine⟩ :=
  claim_C7_amended "T".data [] [] ⟨failTitle, fourInsufficient⟩ rfl

/-- Claim C6 (confirmed): whenever summarize returns and the reply title is
unusable — empty, whitespace, or reduced to empty by the strip rules, which
is exactly rawSummaryTitle giving the empty string — the returned title_ja
is the title-only translation result or the fixed failure placeholder, and
never the empty string. -/
theorem claim_C6_title_fallback (title : PStr) (data tdata : List (PStr × JValue))
    (s : Summary)
    (hok : summarize_title_and_bullets title data tdata = .ok s)
    (hraw : rawSummaryTitle data = []) :
    s.title_ja ≠ [] ∧
      (s.title_ja = translate_title_only title tdata ∨ s.title_ja = failTitle) := by
  unfold summarize_title_and_bullets at hok
  cases hfb : _format_bullets (dictGet data bulletsKey) with
  | error e => rw [hfb] at hok; exact Except.noConfusion hok
  | ok bs =>
      rw [hfb] at hok
      have hs : s = ⟨summaryTitle title data tdata, bs⟩ := by
        cases hok
        rfl
      subst hs
      show summaryTitle title data tdata ≠ [] ∧ _
      unfold summaryTitle
      rw [hraw]
      simp only [if_pos rfl]
      by_cases hr : translate_title_only title tdata = []
      · rw [if_pos hr]
        exact ⟨by decide, Or.inr rfl⟩
      · rw [if_neg hr]
        exact ⟨hr, Or.inl rfl⟩

/-- Witness for claim C6 at a concrete input: an empty summarize reply and
a title-only reply carrying a translation; the returned title is that
translation and is nonempty. -/
theorem claim_C6_witness :
    (Summary.mk "翻訳邦題".data fourInsufficient).title_ja ≠ [] ∧
      ((Summary.mk "翻訳邦題".data fourInsufficient).title_ja =
          translate_title_only "T".data tdataC6 ∨
        (Summary.mk "翻訳邦題".data fourInsufficient).title_ja = failTitle) :=
  claim_C6_title_fallback "T".data [] tdataC6 _ rfl rfl

/- ========= Bullet contract machinery (claims C4 and C5) ========= -/

/-- Shape of a bullets value that Python can iterate. -/
def iterShape : JValue → Bool
  | .str _ => true
  | .arr _ => true
  | .obj _ => true
  | _ => false

/-- A bullets value that cannot make the iteration raise: falsy (guarded by
the lines-or-empty expression) or iterable. -/
def pyIterableOrFalsy (v : JValue) : Bool := pyFalsy v || iterShape v

/-- Under the iterable-or-falsy condition, the guarded iteration cannot
raise. -/
theorem elemsOf_ok (v : JValue) (h : pyIterableOrFalsy v = true) :
    ∃ es, elemsOf v = .ok es := by
  unfold elemsOf
  split
  · exact ⟨[], rfl⟩
  · rename_i hf
    unfold pyIterableOrFalsy at h
    simp only [Bool.or_eq_true] at h
    rcases h with h | h
    · simp [h] at hf
    · cases v with
      | str s => exact ⟨_, rfl⟩
      | arr xs => exact ⟨_, rfl⟩
      | obj kvs => exact ⟨_, rfl⟩
      | null => simp [iterShape] at h
      | bool b => simp [iterShape] at h
      | num n => simp [iterShape] at h

/-- The canonical marker is not whitespace, so stripping a marker-fronted
line keeps its head. -/
theorem pyStrip_head_bullet (l : PStr) : (pyStrip ('・' :: l)).head? = some '・' := by
  unfold pyStrip
  have hsp : pyIsSpace '・' = false := by decide
  rw [List.dropWhile_cons]
  simp only [hsp, Bool.false_eq_true, if_false]
  cases h : List.rdropWhile pyIsSpace ('・' :: l) with
  | nil =>
      exfalso
      have := (List.rdropWhile_eq_nil_iff.mp h) '・' (by simp)
      simp [hsp] at this
  | cons a as =>
      have hp := List.rdropWhile_prefix pyIsSpace ('・' :: l)
      rw [h] at hp
      obtain ⟨t, ht⟩ := hp
      have : a = '・' := (List.cons.injEq _ _ _ _).mp ht |>.1
      simp [this]

/-- Truncated bullets never exceed 150 characters. -/
theorem truncBullet_length (x : PStr) : (truncBullet x).length ≤ 150 := by
  unfold truncBullet
  split
  · assumption
  · simp only [List.length_append, List.length_take, List.length_cons,
      List.length_nil]
    omega

/-- Truncation keeps the first character. -/
theorem truncBullet_head (x : PStr) (c : Char) (h : x.head? = some c) :
    (truncBullet x).head? = some c := by
  unfold truncBullet
  split
  · exact h
  · cases x with
    | nil => simp at h
    | cons a as =>
        simp only [List.head?_cons, Option.some.injEq] at h
        subst h
        rfl

/-- The cut-and-pad step always yields exactly 4 bullets. -/
theorem padFour_length (xs : List PStr) : (padFour xs).length = 4 := by
  unfold padFour
  simp only [List.length_append, List.length_replicate]
  have : (xs.take 4).length ≤ 4 := List.length_take_le 4 xs
  omega

/-- Every padded bullet is a cleaned line or the placeholder. -/
theorem padFour_mem (xs : List PStr) (b : PStr) (h : b ∈ padFour xs) :
    b ∈ xs ∨ b = insufficientBullet := by
  unfold padFour at h
  rcases List.mem_append.mp h with h | h
  · exact Or.inl (List.mem_of_mem_take h)
  · exact Or.inr (List.eq_of_mem_replicate h)

/-- Every cleaned line starts with the canonical marker. -/
theorem cleanBullets_head (elems : List JValue) (b : PStr) (h : b ∈ cleanBullets elems) :
    b.head? = some '・' := by
  unfold cleanBullets at h
  rcases List.mem_map.mp h with ⟨x, _, rfl⟩
  exact pyStrip_head_bullet _

/-- The bullet contract of _format_bullets on every non-raising bullets
value: the result is the cleaned lines cut to 4, padded with the
placeholder and truncated, hence exactly 4 bullets, each within 150
characters and each starting with the canonical marker. -/
theorem format_bullets_spec (v : JValue) (h : pyIterableOrFalsy v = true) :
    ∃ es bs, elemsOf v = .ok es ∧ _format_bullets v = .ok bs ∧
      bs = (padFour (cleanBullets es)).map truncBullet ∧
      bs.length = 4 ∧
      ∀ b ∈ bs, b.length ≤ 150 ∧ b.head? = some '・' := by
  obtain ⟨es, hes⟩ := elemsOf_ok v h
  refine ⟨es, (padFour (cleanBullets es)).map truncBullet, hes, ?_, rfl, ?_, ?_⟩
  · unfold _format_bullets
    rw [hes]
    rfl
  · simp [padFour_length]
  · intro b hb
    rcases List.mem_map.mp hb with ⟨x, hx, rfl⟩
    refine ⟨truncBullet_length x, ?_⟩
    rcases padFour_mem _ _ hx with hx2 | rfl
    · exact truncBullet_head _ _ (cleanBullets_head _ _ hx2)
    · exact truncBullet_head _ _ (by decide)

/-- The title summarize returns is never the empty string. -/
theorem summaryTitle_ne_nil (title : PStr) (data tdata : List (PStr × JValue)) :
    summaryTitle title data tdata ≠ [] := by
  have hft : failTitle ≠ [] := by decide
  unfold summaryTitle
  by_cases h0 : rawSummaryTitle data = []
  · by_cases h1 : translate_title_only title tdata = []
    · simpa [h0, h1] using hft
    · simp [h0, h1]
  · simp [h0]

/-- Claim C4 (corrected, amendment part): for every reply whose bullets
value is falsy or iterable — absent, null, false, zero, a string, an array
or an object — summarize returns, its bullets are exactly the
_format_bullets pipeline output (cut to 4, placeholder-padded, overlong
bullets truncated to 147 characters plus an ellipsis), so there are exactly
4 of them, each at most 150 characters, each beginning with the canonical
marker. -/
theorem claim_C4_amended (title : PStr) (data tdata : List (PStr × JValue))
    (h : pyIterableOrFalsy (dictGet data bulletsKey) = true) :
    ∃ es s, elemsOf (dictGet data bulletsKey) = .ok es ∧
      summarize_title_and_bullets title data tdata = .ok s ∧
      s.bullets = (padFour (cleanBullets es)).map truncBullet ∧
      s.bullets.length = 4 ∧
      ∀ b ∈ s.bullets, b.length ≤ 150 ∧ b.head? = some '・' := by
  obtain ⟨es, bs, hes, hfb, hbs, hlen, hmem⟩ := format_bullets_spec _ h
  refine ⟨es, ⟨summaryTitle title data tdata, bs⟩, hes, ?_, hbs, hlen, hmem⟩
  unfold summarize_title_and_bullets
  rw [hfb]
  rfl

/-- Counterexample for claim C4 as stated.  The claim quantifies over every
generative-model reply; at the reply whose JSON object is the single pair
bullets maps-to 5, the bullets-or-empty guard passes the truthy number to
the iteration, Python raises TypeError, and summarize returns no bullets at
all — so the bullets field cannot have 4 entries. -/
theorem claim_C4_counterexample :
    summarize_title_and_bullets "Any title".data [(bulletsKey, .num 5)] [] =
      .error .typeError := rfl

/-- Witness for the amended claim C4 at a concrete reply holding one short
bullet in a list. -/
theorem claim_C4_witness :
    ∃ es s,
      elemsOf (dictGet [(bulletsKey, JValue.arr [JValue.str "b1".data])] bulletsKey) =
        .ok es ∧
      summarize_title_and_bullets "T".data
          [(bulletsKey, JValue.arr [JValue.str "b1".data])] [] = .ok s ∧
      s.bullets = (padFour (cleanBullets es)).map truncBullet ∧
      s.bullets.length = 4 ∧
      ∀ b ∈ s.bullets, b.length ≤ 150 ∧ b.head? = some '・' :=
  claim_C4_amended "T".data [(bulletsKey, JValue.arr [JValue.str "b1".data])] []
    (by decide)

/-- Claim C5 (corrected, amendment part): for every reply whose bullets
value is falsy or iterable, no contract violation — malformed JSON, missing
keys, wrong count, wrong element shapes, overlength bullets — makes
summarize raise: it returns a record with a nonempty title and exactly 4
bullets, worst case all placeholder text. -/
theorem claim_C5_amended (title : PStr) (data tdata : List (PStr × JValue))
    (h : pyIterableOrFalsy (dictGet data bulletsKey) = true) :
    ∃ s, summarize_title_and_bullets title data tdata = .ok s ∧
      s.title_ja ≠ [] ∧ s.bullets.length = 4 := by
  obtain ⟨es, bs, hes, hfb, hbs, hlen, hmem⟩ := format_bullets_spec _ h
  refine ⟨⟨summaryTitle title data tdata, bs⟩, ?_, summaryTitle_ne_nil _ _ _, hlen⟩
  unfold summarize_title_and_bullets
  rw [hfb]
  rfl

/-- Counterexample for claim C5 as stated.  The claim quantifies over every
possible reply and names bullet value shape among the recovered violations;
at the reply whose bullets value is true, the iteration raises TypeError
and summarize aborts instead of recovering. -/
theorem claim_C5_counterexample :
    summarize_title_and_bullets "T".data
        [(titleKey, .str "邦題".data), (bulletsKey, .bool true)] [] =
      .error .typeError := rfl

/-- Witness for the amended claim C5 at a concrete reply whose bullets
value is a bare string. -/
theorem claim_C5_witness :
    ∃ s, summarize_title_and_bullets "T2".data [(bulletsKey, JValue.str "ab".data)] [] =
        .ok s ∧ s.title_ja ≠ [] ∧ s.bullets.length = 4 :=
  claim_C5_amended "T2".data [(bulletsKey, JValue.str "ab".data)] [] (by decide)

/- ========= Pruning invariant machinery (claim C3) ========= -/

/-- Splitting a filter by its decision preserves length. -/
theorem filter_length_split {α : Type} (p : α → Bool) (l : List α) :
    (l.filter p).length + (l.filter (fun x => ! p x)).length = l.length := by
  induction l with
  | nil => rfl
  | cons e rest ih =>
      by_cases h : p e = true
      · simp [List.filter_cons, h, ← ih]
        omega
      · simp [List.filter_cons, h, ← ih]
        omega

/-- On a well-shaped entry the added_at read returns its pure value. -/
theorem metaAddedAt_ok (meta : JValue) (h : metaOkShape meta = true) :
    metaAddedAt meta = .ok (addedAtVal meta) := by
  unfold metaOkShape at h
  unfold metaAddedAt addedAtVal
  by_cases hf : pyFalsy meta = true
  · simp [hf]
  · simp only [hf, Bool.false_or] at h
    cases meta with
    | obj kvs => simp [hf]
    | null => simp at h
    | bool b => simp at h
    | num n => simp at h
    | str s => simp at h
    | arr xs => simp at h

/-- The keep decision of the prune loop, restated through the parsed
timestamp of the entry: an entry without a parsed timestamp is always kept,
one with a parsed timestamp is kept exactly when it is at or after the
cutoff. -/
theorem keepTs_tsOf (parse : PStr → Option Int) (cutoff : Int) (meta : JValue) :
    keepTs parse cutoff (addedAtVal meta) =
      (match tsOf parse meta with
       | none => true
       | some t => decide (cutoff ≤ t)) := by
  unfold keepTs tsOf
  cases h : addedAtVal meta with
  | str s =>
      by_cases hs0 : s = []
      · subst hs0
        simp [pyFalsy]
      · have hne : pyFalsy (.str s) = false := by
          simp [pyFalsy, List.isEmpty_iff, hs0]
        simp only [hne, Bool.false_eq_true, if_false, hs0, if_neg hs0]
        cases parse s <;> simp
  | null => simp [pyFalsy]
  | bool b => cases b <;> simp [pyFalsy]
  | num n =>
      by_cases hn : n = 0
      · simp [pyFalsy, hn]
      · simp [pyFalsy, hn]
  | arr xs => cases xs <;> simp [pyFalsy]
  | obj kvs => cases kvs <;> simp [pyFalsy]

/-- On a well-shaped state the prune loop never raises: it keeps exactly
the entries whose keep decision holds, in order, and counts the rest. -/
theorem prune_loop_eq (parse : PStr → Option Int) (cutoff : Int) (state : StateMap)
    (hs : ∀ e ∈ state, metaOkShape e.2 = true) :
    prune_loop parse cutoff state =
      .ok (state.filter (fun e => keepTs parse cutoff (addedAtVal e.2)),
        (state.filter (fun e => ! keepTs parse cutoff (addedAtVal e.2))).length) := by
  induction state with
  | nil => rfl
  | cons e rest ih =>
      have hmeta := metaAddedAt_ok e.2 (hs e (by simp))
      have ih2 := ih (fun x hx => hs x (by simp [hx]))
      obtain ⟨pmid, meta⟩ := e
      unfold prune_loop
      rw [hmeta, ih2]
      show (if keepTs parse cutoff (addedAtVal meta) = true then
          Except.ok ((pmid, meta) ::
              rest.filter (fun e => keepTs parse cutoff (addedAtVal e.2)),
            (rest.filter (fun e => ! keepTs parse cutoff (addedAtVal e.2))).length)
        else
          Except.ok (rest.filter (fun e => keepTs parse cutoff (addedAtVal e.2)),
            (rest.filter (fun e => ! keepTs parse cutoff (addedAtVal e.2))).length + 1)) = _
      by_cases hk : keepTs parse cutoff (addedAtVal meta) = true
      · rw [if_pos hk]
        simp [List.filter_cons, hk]
      · rw [if_neg hk]
        simp only [Bool.not_eq_true] at hk
        simp [List.filter_cons, hk]

/-- Claim C3 (corrected, amendment part): prune never raises on a
well-shaped state; every surviving entry either lacks a parseable timestamp
or is at most D days old; every removed entry had a parseable timestamp
strictly more than D days old; the removed count is exactly the number of
entries that did not survive. -/
theorem claim_C3_amended (parse : PStr → Option Int) (now days : Int) (state : StateMap)
    (hs : ∀ e ∈ state, metaOkShape e.2 = true) :
    ∃ kept removed, prune_sent_state parse now days state = .ok (kept, removed) ∧
      (∀ e ∈ kept, tsOf parse e.2 = none ∨
        ∃ t, tsOf parse e.2 = some t ∧ now - t ≤ days * 86400) ∧
      (∀ e ∈ state, e ∉ kept →
        ∃ t, tsOf parse e.2 = some t ∧ now - t > days * 86400) ∧
      kept.length + removed = state.length := by
  refine ⟨state.filter (fun e => keepTs parse (now - days * 86400) (addedAtVal e.2)),
    (state.filter (fun e => ! keepTs parse (now - days * 86400) (addedAtVal e.2))).length,
    prune_loop_eq parse (now - days * 86400) state hs, ?_, ?_, ?_⟩
  · intro e he
    have hk := List.of_mem_filter he
    rw [keepTs_tsOf] at hk
    cases ht : tsOf parse e.2 with
    | none => exact Or.inl rfl
    | some t =>
        rw [ht] at hk
        simp only [decide_eq_true_eq] at hk
        exact Or.inr ⟨t, rfl, by omega⟩
  · intro e he hnk
    have hk : keepTs parse (now - days * 86400) (addedAtVal e.2) = false := by
      by_contra hkk
      simp only [Bool.not_eq_false] at hkk
      exact hnk (List.mem_filter.mpr ⟨he, hkk⟩)
    rw [keepTs_tsOf] at hk
    cases ht : tsOf parse e.2 with
    | none => rw [ht] at hk; cases hk
    | some t =>
        rw [ht] at hk
        simp only [decide_eq_false_iff_not, not_le] at hk
        exact ⟨t, rfl, by omega⟩
  · exact filter_length_split _ state

/-- Counterexample for claim C3 as stated.  The claim makes the survivors
strictly newer than D days and the removed at least D days old; the code
compares with the opposite strictness.  At a timestamp exactly 90 days old,
prune keeps the entry and removes nothing, while the claim demands its
removal: the surviving entry has a parseable timestamp whose age is not
strictly below the retention window. -/
theorem claim_C3_counterexample :
    prune_sent_state isoParse 7776000 90 stateC3 = .ok (stateC3, 0) ∧
    tsOf isoParse metaC3 = some 0 ∧
    ¬ ((7776000 : Int) - 0 < 90 * 86400) :=
  ⟨rfl, rfl, by omega⟩

/-- Witness for the amended claim C3 one second past the cutoff: the lone
entry is removed and counted. -/
theorem claim_C3_witness :
    ∃ kept removed, prune_sent_state isoParse 7776001 90 stateC3 = .ok (kept, removed) ∧
      (∀ e ∈ kept, tsOf isoParse e.2 = none ∨
        ∃ t, tsOf isoParse e.2 = some t ∧ 7776001 - t ≤ 90 * 86400) ∧
      (∀ e ∈ stateC3, e ∉ kept →
        ∃ t, tsOf isoParse e.2 = some t ∧ 7776001 - t > 90 * 86400) ∧
      kept.length + removed = stateC3.length :=
  claim_C3_amended isoParse 7776001 90 stateC3 (by decide)

/- ========= Date fallback machinery (claim C8) ========= -/

/-- Without a year the formatter yields the empty string. -/
theorem fmt_date_no_year (y m d : Option PStr) (h : pyStrip (y.getD []) = []) :
    _fmt_date y m d = [] := by
  simp [_fmt_date, h]

/-- Every value of the month table is a nonempty abbreviation. -/
theorem monthTableVal_ne_nil (m v : PStr) (h : monthTableVal m = some v) :
    v ≠ [] := by
  unfold monthTableVal at h
  cases hf : MONTH_ABBR.find? (fun kv => kv.1 == m) with
  | none => rw [hf] at h; cases h
  | some kv =>
      rw [hf] at h
      simp only [Option.map_some', Option.some.injEq] at h
      subst h
      have hmem := List.mem_of_find?_eq_some hf
      have hall : ∀ p ∈ MONTH_ABBR, p.2 ≠ ([] : PStr) := by decide
      exact hall kv hmem

/-- With a nonempty year, a table month and no day, the formatter yields
year, space, canonical month abbreviation. -/
theorem fmt_date_year_month (y m d : Option PStr) (ab : PStr)
    (hy : pyStrip (y.getD []) ≠ [])
    (hm : monthTableVal (pyStrip (m.getD [])) = some ab)
    (hd : pyStrip (d.getD []) = []) :
    _fmt_date y m d = pyStrip (y.getD []) ++ ' ' :: ab := by
  have hab : ab ≠ [] := monthTableVal_ne_nil _ _ hm
  simp only [_fmt_date, monthGet, hm, hd]
  rw [if_neg (by simp), if_pos ⟨hy, hab⟩]

/-- Claim C8 (confirmed), in three parts following the claim.  First: an
article with no ArticleDate whose issue date has a nonempty year, a month
token from the table and no day displays as year-space-abbreviation.
Second: an article with no ArticleDate, no usable issue year and no
MedlineDate, whose history holds a pubmed-status date with nonempty year, a
table month and no day, displays that date the same way.  Third: an article
with none of these date sources displays the empty string. -/
theorem claim_C8_date_fallback :
    (∀ (art : ArticleDates) (ab : PStr),
      art.articleDates = [] →
      pyStrip (art.issueYear.getD []) ≠ [] →
      monthTableVal (pyStrip (art.issueMonth.getD [])) = some ab →
      pyStrip (art.issueDay.getD []) = [] →
      _extract_pubdate_display art = pyStrip (art.issueYear.getD []) ++ ' ' :: ab) ∧
    (∀ (art : ArticleDates) (hy hm : PStr) (hd : Option PStr) (ab : PStr),
      art.articleDates = [] →
      pyStrip (art.issueYear.getD []) = [] →
      pyStrip (art.medlineDate.getD []) = [] →
      findHistory art.history "pubmed".data = some ⟨some hy, some hm, hd⟩ →
      pyStrip hy ≠ [] →
      monthTableVal (pyStrip hm) = some ab →
      pyStrip (hd.getD []) = [] →
      _extract_pubdate_display art = pyStrip hy ++ ' ' :: ab) ∧
    (∀ (art : ArticleDates),
      art.articleDates = [] →
      pyStrip (art.issueYear.getD []) = [] →
      pyStrip (art.medlineDate.getD []) = [] →
      art.history = [] →
      _extract_pubdate_display art = []) := by
  refine ⟨?_, ?_, ?_⟩
  · intro art ab hA hy hm hd
    have hfmt := fmt_date_year_month art.issueYear art.issueMonth art.issueDay ab hy hm hd
    unfold _extract_pubdate_display
    rw [hA]
    simp only [List.find?_nil, List.head?_nil, ne_eq, not_true_eq_false, if_false,
      hfmt]
    rw [if_pos (by simp)]
  · intro art hy hm hd ab hA hYear hMd hHist hyne hmt hdne
    have hfmt := fmt_date_year_month (some hy) (some hm) hd ab hyne hmt hdne
    have hs3 := fmt_date_no_year art.issueYear art.issueMonth art.issueDay hYear
    unfold _extract_pubdate_display
    rw [hA]
    simp only [List.find?_nil, List.head?_nil, ne_eq, not_true_eq_false, if_false,
      hs3, hMd, hHist, hfmt]
    rfl
  · intro art hA hYear hMd hH
    have hs3 := fmt_date_no_year art.issueYear art.issueMonth art.issueDay hYear
    unfold _extract_pubdate_display
    rw [hA, hH]
    simp only [List.find?_nil, List.head?_nil, ne_eq, not_true_eq_false, if_false,
      hs3, hMd]
    rfl

/-- Witness for claim C8, one concrete article per part: a month-year issue
date, a pubmed history date, and an article with no date at all. -/
theorem claim_C8_witness :
    _extract_pubdate_display ⟨[], some "2025".data, some "September".data, none, none, []⟩ =
      "2025 Sep".data ∧
    _extract_pubdate_display
        ⟨[], none, none, none, none,
          [("pubmed".data, ⟨some "2024".data, some "07".data, none⟩)]⟩ =
      "2024 Jul".data ∧
    _extract_pubdate_display ⟨[], none, none, none, none, []⟩ = [] :=
  ⟨claim_C8_date_fallback.1 ⟨[], some "2025".data, some "September".data, none, none, []⟩
      "Sep".data rfl (by decide) rfl rfl,
    claim_C8_date_fallback.2.1
      ⟨[], none, none, none, none,
        [("pubmed".data, ⟨some "2024".data, some "07".data, none⟩)]⟩
      "2024".data "07".data none "Jul".data rfl rfl rfl rfl (by decide) rfl rfl,
    claim_C8_date_fallback.2.2 ⟨[], none, none, none, none, []⟩ rfl rfl rfl rfl⟩

/- ========= Recipient resolution machinery (claim C9) ========= -/

/-- Unfolding: the loop keeps a fresh nonempty address. -/
theorem collectAddrs_cons_pos (pa : PStr → PStr) (p : PStr) (ps : List PStr)
    (seen : List PStr)
    (h : pa (pyStrip p) ≠ [] ∧ pyLower (pa (pyStrip p)) ∉ seen) :
    collectAddrs pa (p :: ps) seen =
      pa (pyStrip p) :: collectAddrs pa ps (pyLower (pa (pyStrip p)) :: seen) := by
  simp only [collectAddrs]
  rw [if_pos h]

/-- Unfolding: the loop skips an empty or already-seen address. -/
theorem collectAddrs_cons_neg (pa : PStr → PStr) (p : PStr) (ps : List PStr)
    (seen : List PStr)
    (h : ¬ (pa (pyStrip p) ≠ [] ∧ pyLower (pa (pyStrip p)) ∉ seen)) :
    collectAddrs pa (p :: ps) seen = collectAddrs pa ps seen := by
  simp only [collectAddrs]
  rw [if_neg h]

/-- Unfolding: a piece with a nonempty address contributes it to the
sequence. -/
theorem addrSeq_cons_pos (pa : PStr → PStr) (p : PStr) (ps : List PStr)
    (h : pa (pyStrip p) ≠ []) :
    addrSeq pa (p :: ps) = pa (pyStrip p) :: addrSeq pa ps := by
  unfold addrSeq
  simp [List.filter_cons, h]

/-- Unfolding: a piece with an empty address contributes nothing. -/
theorem addrSeq_cons_neg (pa : PStr → PStr) (p : PStr) (ps : List PStr)
    (h : pa (pyStrip p) = []) :
    addrSeq pa (p :: ps) = addrSeq pa ps := by
  unfold addrSeq
  simp [List.filter_cons, h]

/-- A set, nonempty environment value wins. -/
theorem envOr_some_ne (s b : PStr) (h : s ≠ []) : envOr (some s) b = s := by
  simp [envOr, h]

/-- A set but empty environment value falls through. -/
theorem envOr_some_nil (b : PStr) : envOr (some []) b = b := by
  simp [envOr]

/-- An unset environment value falls through. -/
theorem envOr_none (b : PStr) : envOr none b = b := rfl

/-- The output of the recipient loop is a subsequence of the address
sequence: first-seen order is preserved. -/
theorem collectAddrs_sublist (pa : PStr → PStr) (parts : List PStr) (seen : List PStr) :
    List.Sublist (collectAddrs pa parts seen) (addrSeq pa parts) := by
  induction parts generalizing seen with
  | nil => exact List.Sublist.refl _
  | cons p ps ih =>
      by_cases ha : pa (pyStrip p) = []
      · rw [collectAddrs_cons_neg pa p ps seen (fun hc => hc.1 ha),
          addrSeq_cons_neg pa p ps ha]
        exact ih seen
      · rw [addrSeq_cons_pos pa p ps ha]
        by_cases hseen : pyLower (pa (pyStrip p)) ∈ seen
        · rw [collectAddrs_cons_neg pa p ps seen (fun hc => hc.2 hseen)]
          exact (ih seen).cons _
        · rw [collectAddrs_cons_pos pa p ps seen ⟨ha, hseen⟩]
          exact (ih _).cons₂ _

/-- Nothing the loop emits was already seen. -/
theorem collectAddrs_not_seen (pa : PStr → PStr) (parts : List PStr) (seen : List PStr) :
    ∀ a ∈ collectAddrs pa parts seen, pyLower a ∉ seen := by
  induction parts generalizing seen with
  | nil => simp [collectAddrs]
  | cons p ps ih =>
      by_cases hc : pa (pyStrip p) ≠ [] ∧ pyLower (pa (pyStrip p)) ∉ seen
      · rw [collectAddrs_cons_pos pa p ps seen hc]
        intro a ha
        rcases List.mem_cons.mp ha with rfl | ha
        · exact hc.2
        · exact fun hmem => ih _ a ha (List.mem_cons_of_mem _ hmem)
      · rw [collectAddrs_cons_neg pa p ps seen hc]
        exact ih seen

/-- The loop output is pairwise distinct on lowercased addresses. -/
theorem collectAddrs_pairwise (pa : PStr → PStr) (parts : List PStr) (seen : List PStr) :
    (collectAddrs pa parts seen).Pairwise (fun a b => pyLower a ≠ pyLower b) := by
  induction parts generalizing seen with
  | nil => simp [collectAddrs]
  | cons p ps ih =>
      by_cases hc : pa (pyStrip p) ≠ [] ∧ pyLower (pa (pyStrip p)) ∉ seen
      · rw [collectAddrs_cons_pos pa p ps seen hc]
        refine List.Pairwise.cons ?_ (ih _)
        intro b hb he
        exact collectAddrs_not_seen pa ps _ b hb
          (by rw [← he]; exact List.mem_cons_self _ _)
      · rw [collectAddrs_cons_neg pa p ps seen hc]
        exact ih seen

/-- Every address of the sequence is represented: its lowercase form was
already seen, or some emitted address shares it. -/
theorem collectAddrs_covers (pa : PStr → PStr) (parts : List PStr) (seen : List PStr) :
    ∀ a ∈ addrSeq pa parts,
      pyLower a ∈ seen ∨ ∃ b ∈ collectAddrs pa parts seen, pyLower b = pyLower a := by
  induction parts generalizing seen with
  | nil => simp [addrSeq]
  | cons p ps ih =>
      intro a ha
      by_cases hpe : pa (pyStrip p) = []
      · rw [addrSeq_cons_neg pa p ps hpe] at ha
        rw [collectAddrs_cons_neg pa p ps seen (fun hc => hc.1 hpe)]
        exact ih seen a ha
      · rw [addrSeq_cons_pos pa p ps hpe] at ha
        rcases List.mem_cons.mp ha with rfl | ha2
        · by_cases hseen : pyLower (pa (pyStrip p)) ∈ seen
          · exact Or.inl hseen
          · rw [collectAddrs_cons_pos pa p ps seen ⟨hpe, hseen⟩]
            exact Or.inr ⟨pa (pyStrip p), List.mem_cons_self _ _, rfl⟩
        · by_cases hseen : pyLower (pa (pyStrip p)) ∈ seen
          · rw [collectAddrs_cons_neg pa p ps seen (fun hc => hc.2 hseen)]
            exact ih seen a ha2
          · rw [collectAddrs_cons_pos pa p ps seen ⟨hpe, hseen⟩]
            rcases ih (pyLower (pa (pyStrip p)) :: seen) a ha2 with hs | ⟨b, hb, hbe⟩
            · rcases List.mem_cons.mp hs with he | hs2
              · exact Or.inr ⟨pa (pyStrip p), List.mem_cons_self _ _, he.symm⟩
              · exact Or.inl hs2
            · exact Or.inr ⟨b, List.mem_cons_of_mem _ hb, hbe⟩

/-- Claim C9 (confirmed), in five parts following the claim.  First, the
concrete scenario: the given display-name and duplicate input resolves to
exactly the two addresses in first-seen order.  Then the priority chain: a
nonempty multi-recipient source decides the result whatever the other
sources hold; with the multi-recipient source unavailable a nonempty
single-recipient source decides it; with both unavailable the sender
address decides it.  Last, for every input: the result is deduplicated on
the lowercased address, is a subsequence of the parsed address sequence
(first-seen order preserved), and covers every parsed address up to
case. -/
theorem claim_C9_recipients :
    (_parse_recipients_env parseaddrAddr
        (some "Dr. A <a@x.com>; a@x.com, B <b@x.com>".data) none none =
      ["a@x.com".data, "b@x.com".data]) ∧
    (∀ (pa : PStr → PStr) (s : PStr) (x1 x2 y1 y2 : Option PStr), s ≠ [] →
      _parse_recipients_env pa (some s) x1 y1 =
        _parse_recipients_env pa (some s) x2 y2) ∧
    (∀ (pa : PStr → PStr) (m : Option PStr) (s : PStr) (y1 y2 : Option PStr),
      (m = none ∨ m = some []) → s ≠ [] →
      _parse_recipients_env pa m (some s) y1 =
        _parse_recipients_env pa (some s) none y2) ∧
    (∀ (pa : PStr → PStr) (m s : Option PStr) (se : PStr),
      (m = none ∨ m = some []) → (s = none ∨ s = some []) →
      _parse_recipients_env pa m s (some se) =
        _parse_recipients_env pa (some se) none none) ∧
    (∀ (pa : PStr → PStr) (multi single sender : Option PStr),
      (_parse_recipients_env pa multi single sender).Pairwise
          (fun a b => pyLower a ≠ pyLower b) ∧
      List.Sublist (_parse_recipients_env pa multi single sender)
        (addrSeq pa (splitSeps (rawRecipients multi single sender))) ∧
      ∀ a ∈ addrSeq pa (splitSeps (rawRecipients multi single sender)),
        ∃ b ∈ _parse_recipients_env pa multi single sender,
          pyLower b = pyLower a) := by
  refine ⟨rfl, ?_, ?_, ?_, ?_⟩
  · intro pa s x1 x2 y1 y2 hne
    unfold _parse_recipients_env rawRecipients
    rw [envOr_some_ne _ _ hne, envOr_some_ne _ _ hne]
  · intro pa m s y1 y2 hm hne
    unfold _parse_recipients_env rawRecipients
    rcases hm with rfl | rfl
    · rw [envOr_none, envOr_some_ne _ _ hne, envOr_some_ne _ _ hne]
    · rw [envOr_some_nil, envOr_some_ne _ _ hne, envOr_some_ne _ _ hne]
  · intro pa m s se hm hs
    unfold _parse_recipients_env rawRecipients
    rcases hm with rfl | rfl <;> rcases hs with rfl | rfl <;>
      simp only [envOr_none, envOr_some_nil]
  · intro pa multi single sender
    refine ⟨collectAddrs_pairwise pa _ [], collectAddrs_sublist pa _ [], ?_⟩
    intro a ha
    rcases collectAddrs_covers pa (splitSeps (rawRecipients multi single sender)) [] a ha
      with hs | hb
    · cases hs
    · exact hb

/-- Witness for claim C9: the priority parts and the coverage part applied
at concrete inputs. -/
theorem claim_C9_witness :
    (_parse_recipients_env parseaddrAddr (some "a@x.com".data) (some "z@y.com".data) none =
      _parse_recipients_env parseaddrAddr (some "a@x.com".data) none
        (some "q@w.com".data)) ∧
    (∀ a ∈ addrSeq parseaddrAddr
        (splitSeps (rawRecipients (some "a@x.com, A <A@X.COM>".data) none none)),
      ∃ b ∈ _parse_recipients_env parseaddrAddr (some "a@x.com, A <A@X.COM>".data)
          none none,
        pyLower b = pyLower a) :=
  ⟨claim_C9_recipients.2.1 parseaddrAddr "a@x.com".data (some "z@y.com".data) none none
      (some "q@w.com".data) (by decide),
    (claim_C9_recipients.2.2.2.2 parseaddrAddr (some "a@x.com, A <A@X.COM>".data)
      none none).2.2⟩
